import Mathlib

/-
Verification of the ERC-6909 multi-token ledger and its total-supply
extension (`contracts/src/token/erc6909/mod.rs` and
`contracts/src/token/erc6909/extensions/supply.rs`).

Modelling conventions:
* `Address` is the finite type of 20-byte addresses, `Fin (2 ^ 160)`;
  the zero address is `0`.
* 256-bit unsigned integers (`U256`) are modelled as `Nat`; wrapping and
  overflow checks are explicit against `MOD = 2 ^ 256`.
* Storage maps are total functions with default value `0` / `false`,
  matching lazily materialized EVM storage.
* A contract call is a function from the pre-state into an `Outcome`:
  `ok st'` is success, `err e` is a returned `Err(..)` value (the Stylus
  host reverts all storage writes of the invocation, so an `err` outcome
  carries no state), and `fatal msg` is an unrecoverable panic.
* `msg::sender()` is passed explicitly as a `caller` argument.
* Event emission is not modelled (events are not observable state).
-/

namespace Erc6909Spec

/-- The modulus of 160-bit addresses. -/
def ADDRMOD : Nat := 2 ^ 160

instance : NeZero ADDRMOD := ⟨by decide⟩

/-- 20-byte EVM addresses; `0` is the zero (mint source / burn sink) address. -/
abbrev Address := Fin ADDRMOD

/-- The modulus of 256-bit unsigned integers (`U256`). -/
def MOD : Nat := 2 ^ 256

/-- The errors of `Erc6909` (`mod.rs`, `enum Error`), with their payloads. -/
inductive Error where
  | InsufficientBalance (sender : Address) (balance needed id : Nat)
  | InsufficientPermission (spender : Address) (id : Nat)
  | InsufficientAllowance (spender : Address) (allowance needed id : Nat)
  | InvalidApprover (approver : Address)
  | InvalidSender (sender : Address)
  | InvalidSpender (spender : Address)
  | InvalidReceiver (receiver : Address)
  | InvalidArrayLength (idsLength valuesLength : Nat)
  deriving DecidableEq

/-- Outcome of a contract invocation: success, a returned error value
(which the host turns into a revert of the whole invocation), or an
unrecoverable panic. -/
inductive Outcome (α : Type) where
  | ok : α → Outcome α
  | err : Error → Outcome α
  | fatal : String → Outcome α

def Outcome.bind {α β : Type} : Outcome α → (α → Outcome β) → Outcome β
  | .ok a, f => f a
  | .err e, _ => .err e
  | .fatal m, _ => .fatal m

instance : Monad Outcome where
  pure := .ok
  bind := Outcome.bind

/-- Whether an outcome is a success. -/
def Outcome.isOk {α : Type} : Outcome α → Bool
  | .ok _ => true
  | _ => false

/-- Whether an outcome is a panic. -/
def Outcome.isFatal {α : Type} : Outcome α → Bool
  | .fatal _ => true
  | _ => false

/-- Extract the success value of an outcome, with a default. -/
def Outcome.getOk {α : Type} : Outcome α → α → α
  | .ok a, _ => a
  | _, d => d

/-- Modelled from the spec: the crate's `AddAssignChecked` storage helper
(`utils/math/storage.rs` is not under `src/`): "Checked add-assign: set
slot to `old + delta`; if the mathematical sum exceeds 2^256 - 1, the
operation fails fatally with a caller-provided panic message." -/
def addAssignChecked (old delta : Nat) (m : String) : Outcome Nat :=
  if MOD ≤ old + delta then .fatal m else .ok (old + delta)

/-- Modelled from the spec: the crate's `SubAssignUnchecked` storage helper
(`utils/math/storage.rs` is not under `src/`): "Unchecked sub-assign: set
slot to `old - delta` under the precondition that `old ≥ delta`; wraps if
the precondition is violated." On values below `MOD` this agrees with
wrapping subtraction modulo 2^256. -/
def subAssignUnchecked (old delta : Nat) : Nat :=
  if delta ≤ old then old - delta else (old + MOD - delta) % MOD

/-- State of the base `Erc6909` ledger (`mod.rs`, `struct Erc6909`). -/
structure Erc6909State where
  balances : Address → Nat → Nat
  operatorApprovals : Address → Address → Bool
  allowances : Address → Address → Nat → Nat

/-- State of the supply extension (`supply.rs`, `struct Erc6909Supply`). -/
structure Erc6909SupplyState where
  erc6909 : Erc6909State
  totalSupply : Nat → Nat

/-- Point update of a balances map at one `(owner, id)` slot. -/
def setBal (b : Address → Nat → Nat) (a : Address) (id v : Nat) :
    Address → Nat → Nat :=
  fun a' id' => if a' = a ∧ id' = id then v else b a' id'

/-- Point update of an allowances map at one `(owner, spender, id)` slot. -/
def setAllow (al : Address → Address → Nat → Nat) (owner spender : Address)
    (id v : Nat) : Address → Address → Nat → Nat :=
  fun o s i => if o = owner ∧ s = spender ∧ i = id then v else al o s i

/-- Point update of an operator-approvals map at one `(owner, spender)` slot. -/
def setOp (op : Address → Address → Bool) (owner spender : Address) (v : Bool) :
    Address → Address → Bool :=
  fun o s => if o = owner ∧ s = spender then v else op o s

/-- Point update of the total-supply map at one `id` slot. -/
def setSupply (ts : Nat → Nat) (id v : Nat) : Nat → Nat :=
  fun i => if i = id then v else ts i

namespace Erc6909

/-- `Erc6909::balance_of`. -/
def balance_of (st : Erc6909State) (owner : Address) (id : Nat) : Nat :=
  st.balances owner id

/-- `Erc6909::allowance`. -/
def allowance (st : Erc6909State) (owner spender : Address) (id : Nat) : Nat :=
  st.allowances owner spender id

/-- `Erc6909::is_operator`. -/
def is_operator (st : Erc6909State) (owner spender : Address) : Bool :=
  st.operatorApprovals owner spender

/-- `Erc6909::_do_update`: debit `from_` (balance-checked, then unchecked
sub) unless it is zero, then credit `to_` (checked add, panics on
overflow) unless it is zero. -/
def _do_update (st : Erc6909State) (from_ to_ : Address) (id amount : Nat) :
    Outcome Erc6909State :=
  let debit : Outcome Erc6909State :=
    if from_ = 0 then .ok st
    else
      let from_balance := balance_of st from_ id
      if from_balance < amount then
        .err (.InsufficientBalance from_ from_balance amount id)
      else
        .ok { st with
              balances :=
                setBal st.balances from_ id
                  (subAssignUnchecked from_balance amount) }
  debit.bind fun st1 =>
      if to_ = 0 then .ok st1
      else
        (addAssignChecked (balance_of st1 to_ id) amount
            "should not exceed `U256::MAX` for `balances`").bind
          fun v => .ok { st1 with balances := setBal st1.balances to_ id v }

/-- `Erc6909::require_equal_arrays_length`. -/
def require_equal_arrays_length (ids values : List Nat) : Outcome Unit :=
  if ids.length ≠ values.length then
    .err (.InvalidArrayLength ids.length values.length)
  else .ok ()

/-- The loop of `Erc6909::_update` over the zipped `(id, amount)` pairs. -/
def updateFold (from_ to_ : Address) :
    Erc6909State → List (Nat × Nat) → Outcome Erc6909State
  | st, [] => .ok st
  | st, p :: rest =>
      (_do_update st from_ to_ p.1 p.2).bind fun st' =>
        updateFold from_ to_ st' rest

/-- `Erc6909::_update`: length check, then per-pair `_do_update`.
Event emission (`TransferSingle` / `TransferBatch`) is not modelled. -/
def _update (st : Erc6909State) (from_ to_ : Address) (ids amounts : List Nat) :
    Outcome Erc6909State :=
  (require_equal_arrays_length ids amounts).bind fun _ =>
    updateFold from_ to_ st (ids.zip amounts)

/-- `Erc6909::_transfer`: zero-address guards, then a single-pair `_update`. -/
def _transfer (st : Erc6909State) (from_ to_ : Address) (id amount : Nat) :
    Outcome Erc6909State :=
  if from_ = 0 then .err (.InvalidSender from_)
  else if to_ = 0 then .err (.InvalidReceiver to_)
  else _update st from_ to_ [id] [amount]

/-- `Erc6909::transfer` (public); `caller` is `msg::sender()`. The
`Ok(true)` success value is collapsed into the `ok` state. -/
def transfer (st : Erc6909State) (caller receiver : Address)
    (id amount : Nat) : Outcome Erc6909State :=
  _transfer st caller receiver id amount

/-- `Erc6909::_spend_allowance`: errors if the current allowance is below
`amount` (the source reports `needed := current_allowance`), otherwise
decrements the allowance with an unchecked sub. -/
def _spend_allowance (st : Erc6909State) (owner spender : Address)
    (id amount : Nat) : Outcome Erc6909State :=
  let current_allowance := allowance st owner spender id
  if current_allowance < amount then
    .err (.InsufficientAllowance spender current_allowance current_allowance id)
  else
    .ok { st with
          allowances :=
            setAllow st.allowances owner spender id
              (subAssignUnchecked current_allowance amount) }

/-- `Erc6909::transfer_from` (public): spends allowance unless the caller
is an operator of `sender` or is `sender` itself, then transfers. -/
def transfer_from (st : Erc6909State) (caller sender receiver : Address)
    (id amount : Nat) : Outcome Erc6909State :=
  (if ¬is_operator st sender caller ∧ sender ≠ caller then
     _spend_allowance st sender caller id amount
   else .ok st).bind
    fun st1 => _transfer st1 sender receiver id amount

/-- `Erc6909::_approve`: zero-address guards, then absolute set of the
allowance slot. -/
def _approve (st : Erc6909State) (owner spender : Address) (id amount : Nat) :
    Outcome Erc6909State :=
  if owner = 0 then .err (.InvalidApprover owner)
  else if spender = 0 then .err (.InvalidSpender spender)
  else .ok { st with allowances := setAllow st.allowances owner spender id amount }

/-- `Erc6909::approve` (public). -/
def approve (st : Erc6909State) (caller spender : Address) (id amount : Nat) :
    Outcome Erc6909State :=
  _approve st caller spender id amount

/-- `Erc6909::_set_operator`. -/
def _set_operator (st : Erc6909State) (owner spender : Address)
    (approved : Bool) : Outcome Erc6909State :=
  if owner = 0 then .err (.InvalidApprover owner)
  else if spender = 0 then .err (.InvalidSpender spender)
  else .ok { st with operatorApprovals := setOp st.operatorApprovals owner spender approved }

/-- `Erc6909::set_operator` (public). -/
def set_operator (st : Erc6909State) (caller spender : Address)
    (approved : Bool) : Outcome Erc6909State :=
  _set_operator st caller spender approved

/-- `Erc6909::_do_mint`: receiver guard, then `_update` from the zero address. -/
def _do_mint (st : Erc6909State) (to_ : Address) (ids amounts : List Nat) :
    Outcome Erc6909State :=
  if to_ = 0 then .err (.InvalidReceiver to_)
  else _update st 0 to_ ids amounts

/-- `Erc6909::_mint`. -/
def _mint (st : Erc6909State) (to_ : Address) (id amount : Nat) :
    Outcome Erc6909State :=
  _do_mint st to_ [id] [amount]

/-- `Erc6909::_mint_batch`. -/
def _mint_batch (st : Erc6909State) (to_ : Address) (ids amounts : List Nat) :
    Outcome Erc6909State :=
  _do_mint st to_ ids amounts

/-- `Erc6909::_do_burn`: sender guard, then `_update` into the zero address. -/
def _do_burn (st : Erc6909State) (from_ : Address) (ids amounts : List Nat) :
    Outcome Erc6909State :=
  if from_ = 0 then .err (.InvalidSender from_)
  else _update st from_ 0 ids amounts

/-- `Erc6909::_burn`. -/
def _burn (st : Erc6909State) (from_ : Address) (id amount : Nat) :
    Outcome Erc6909State :=
  _do_burn st from_ [id] [amount]

/-- `Erc6909::_burn_batch`. -/
def _burn_batch (st : Erc6909State) (from_ : Address) (ids amounts : List Nat) :
    Outcome Erc6909State :=
  _do_burn st from_ ids amounts

/-- Modelled from the spec: the 4-byte interface identifier of `IErc6909`
(the `interface_id` proc macro is not under `src/`; the value `0x0f632fb3`
is fixed by the spec and asserted by the in-repo `interface_id` test). -/
def IERC6909_INTERFACE_ID : Nat := 0x0f632fb3

/-- Modelled from the spec: the 4-byte interface identifier of `IErc165`
(`0x01ffc9a7`, the ERC-165 introspection interface). -/
def IERC165_INTERFACE_ID : Nat := 0x01ffc9a7

/-- `Erc6909::supports_interface` (`IErc165` impl in `mod.rs`). -/
def supports_interface (interfaceId : Nat) : Bool :=
  interfaceId == IERC6909_INTERFACE_ID || interfaceId == IERC165_INTERFACE_ID

end Erc6909

namespace Erc6909Supply

/-- `Erc6909Supply::total_supply`. -/
def total_supply (st : Erc6909SupplyState) (id : Nat) : Nat :=
  st.totalSupply id

/-- `Erc6909Supply::balance_of` (delegation). -/
def balance_of (st : Erc6909SupplyState) (owner : Address) (id : Nat) : Nat :=
  Erc6909.balance_of st.erc6909 owner id

/-- `Erc6909Supply::allowance` (delegation). -/
def allowance (st : Erc6909SupplyState) (owner spender : Address)
    (id : Nat) : Nat :=
  Erc6909.allowance st.erc6909 owner spender id

/-- `Erc6909Supply::is_operator` (delegation). -/
def is_operator (st : Erc6909SupplyState) (owner spender : Address) : Bool :=
  Erc6909.is_operator st.erc6909 owner spender

/-- The mint leg of `Erc6909Supply::_update`: per-pair checked add on the
total-supply map; panics on overflow. -/
def supplyMintFold : (Nat → Nat) → List (Nat × Nat) → Outcome (Nat → Nat)
  | ts, [] => .ok ts
  | ts, p :: rest =>
      (addAssignChecked (ts p.1) p.2
          "should not exceed `U256::MAX` for `total_supply`").bind
        fun v => supplyMintFold (setSupply ts p.1 v) rest

/-- The burn leg of `Erc6909Supply::_update`: per-pair unchecked sub on
the total-supply map. -/
def supplyBurnFold : (Nat → Nat) → List (Nat × Nat) → Nat → Nat
  | ts, [] => ts
  | ts, p :: rest =>
      supplyBurnFold (setSupply ts p.1 (subAssignUnchecked (ts p.1) p.2)) rest

/-- `Erc6909Supply::_update`: the base ledger's `_update` first, then the
supply mint leg when `from_` is zero, then the supply burn leg when `to_`
is zero. -/
def _update (st : Erc6909SupplyState) (from_ to_ : Address)
    (ids amounts : List Nat) : Outcome Erc6909SupplyState :=
  (Erc6909._update st.erc6909 from_ to_ ids amounts).bind fun b =>
    (if from_ = 0 then supplyMintFold st.totalSupply (ids.zip amounts)
     else .ok st.totalSupply).bind
      fun ts1 =>
        .ok { erc6909 := b
              totalSupply :=
                if to_ = 0 then supplyBurnFold ts1 (ids.zip amounts) else ts1 }

/-- `Erc6909Supply::_transfer`: zero-address guards, then a single-pair
extension `_update`. -/
def _transfer (st : Erc6909SupplyState) (from_ to_ : Address)
    (id amount : Nat) : Outcome Erc6909SupplyState :=
  if from_ = 0 then .err (.InvalidSender from_)
  else if to_ = 0 then .err (.InvalidReceiver to_)
  else _update st from_ to_ [id] [amount]

/-- `Erc6909Supply::transfer` (public); `caller` is `msg::sender()`. -/
def transfer (st : Erc6909SupplyState) (caller receiver : Address)
    (id amount : Nat) : Outcome Erc6909SupplyState :=
  _transfer st caller receiver id amount

/-- `Erc6909Supply::transfer_from` (public). NOTE: faithful to_ the source,
which forwards directly to_ `Self::_transfer` and ignores the caller:
no operator check and no allowance consumption happens here. -/
def transfer_from (st : Erc6909SupplyState) (_caller sender receiver : Address)
    (id amount : Nat) : Outcome Erc6909SupplyState :=
  _transfer st sender receiver id amount

/-- `Erc6909Supply::approve` (delegation into the contained ledger). -/
def approve (st : Erc6909SupplyState) (caller spender : Address)
    (id amount : Nat) : Outcome Erc6909SupplyState :=
  (Erc6909.approve st.erc6909 caller spender id amount).bind fun b =>
    .ok { st with erc6909 := b }

/-- `Erc6909Supply::set_operator` (delegation into the contained ledger). -/
def set_operator (st : Erc6909SupplyState) (caller spender : Address)
    (approved : Bool) : Outcome Erc6909SupplyState :=
  (Erc6909.set_operator st.erc6909 caller spender approved).bind fun b =>
    .ok { st with erc6909 := b }

/-- `Erc6909Supply::_do_mint`. -/
def _do_mint (st : Erc6909SupplyState) (to_ : Address)
    (ids amounts : List Nat) : Outcome Erc6909SupplyState :=
  if to_ = 0 then .err (.InvalidReceiver to_)
  else _update st 0 to_ ids amounts

/-- `Erc6909Supply::_mint`. -/
def _mint (st : Erc6909SupplyState) (to_ : Address) (id amount : Nat) :
    Outcome Erc6909SupplyState :=
  _do_mint st to_ [id] [amount]

/-- `Erc6909Supply::_mint_batch`. -/
def _mint_batch (st : Erc6909SupplyState) (to_ : Address)
    (ids amounts : List Nat) : Outcome Erc6909SupplyState :=
  _do_mint st to_ ids amounts

/-- `Erc6909Supply::_do_burn`. -/
def _do_burn (st : Erc6909SupplyState) (from_ : Address)
    (ids amounts : List Nat) : Outcome Erc6909SupplyState :=
  if from_ = 0 then .err (.InvalidSender from_)
  else _update st from_ 0 ids amounts

/-- `Erc6909Supply::_burn`. -/
def _burn (st : Erc6909SupplyState) (from_ : Address) (id amount : Nat) :
    Outcome Erc6909SupplyState :=
  _do_burn st from_ [id] [amount]

/-- `Erc6909Supply::_burn_batch`. -/
def _burn_batch (st : Erc6909SupplyState) (from_ : Address)
    (ids amounts : List Nat) : Outcome Erc6909SupplyState :=
  _do_burn st from_ ids amounts

/-- Modelled from the spec: the 4-byte interface identifier of
`IErc6909Supply` (`0xbd85b039`, fixed by the spec and asserted by the
in-repo `interface_id` test). -/
def IERC6909SUPPLY_INTERFACE_ID : Nat := 0xbd85b039

/-- `Erc6909Supply::supports_interface` (`IErc165` impl in `supply.rs`). -/
def supports_interface (interfaceId : Nat) : Bool :=
  interfaceId == IERC6909SUPPLY_INTERFACE_ID ||
    Erc6909.supports_interface interfaceId ||
    interfaceId == Erc6909.IERC165_INTERFACE_ID

end Erc6909Supply

end Erc6909Spec

namespace Erc6909Spec

/-- Sum of the balances of token `id` over all non-zero addresses. -/
def sumBal (st : Erc6909State) (id : Nat) : Nat :=
  ∑ a ∈ Finset.univ.erase (0 : Address), st.balances a id

/-- The ledger invariant of the supply extension: the zero address holds
nothing, and for every token id the stored supply equals the sum of the
balances over all non-zero owners. -/
def Inv (st : Erc6909SupplyState) : Prop :=
  ∀ id, st.erc6909.balances 0 id = 0 ∧ sumBal st.erc6909 id = st.totalSupply id

/-- Representability of the stored values as 256-bit integers. -/
def WF (st : Erc6909SupplyState) : Prop :=
  (∀ a i, st.erc6909.balances a i < MOD) ∧ ∀ i, st.totalSupply i < MOD

/-- Total amount carried by the pairs of a batch whose token id is `id`. -/
def amtSum (id : Nat) : List (Nat × Nat) → Nat
  | [] => 0
  | p :: rest => (if p.1 = id then p.2 else 0) + amtSum id rest

/-- The all-zero ledger-with-supply state. -/
def emptyState : Erc6909SupplyState :=
  { erc6909 :=
      { balances := fun _ _ => 0
        operatorApprovals := fun _ _ => false
        allowances := fun _ _ _ => 0 }
    totalSupply := fun _ => 0 }

/-- A state in which address `1` holds `7` tokens of every id and nothing
else is set; the supply of every id is `7`. -/
def oneHolderState : Erc6909SupplyState :=
  { erc6909 :=
      { balances := fun a _ => if a = 1 then 7 else 0
        operatorApprovals := fun _ _ => false
        allowances := fun _ _ _ => 0 }
    totalSupply := fun _ => 7 }

/-- A state in which address `1` holds `MOD - 1` tokens of every id (the
largest representable balance) and the supply of every id is `MOD - 1`. -/
def nearMaxState : Erc6909SupplyState :=
  { erc6909 :=
      { balances := fun a _ => if a = 1 then MOD - 1 else 0
        operatorApprovals := fun _ _ => false
        allowances := fun _ _ _ => 0 }
    totalSupply := fun _ => MOD - 1 }

end Erc6909Spec

namespace Erc6909Spec

theorem MOD_pos : 0 < MOD := by decide

theorem Outcome.bind_eq_ok {α β : Type} {o : Outcome α} {k : α → Outcome β}
    {b : β} : o.bind k = .ok b ↔ ∃ a, o = .ok a ∧ k a = .ok b := by
  cases o <;> simp [Outcome.bind]

theorem subAssignUnchecked_of_le {old delta : Nat} (h : delta ≤ old) :
    subAssignUnchecked old delta = old - delta := if_pos h

theorem subAssignUnchecked_lt {old delta : Nat} (h : old < MOD) :
    subAssignUnchecked old delta < MOD := by
  unfold subAssignUnchecked
  split
  · omega
  · exact Nat.mod_lt _ MOD_pos

theorem addAssignChecked_eq_ok {old delta v : Nat} {m : String} :
    addAssignChecked old delta m = .ok v ↔ old + delta < MOD ∧ v = old + delta := by
  unfold addAssignChecked
  split
  · simp; omega
  · simp; omega

namespace Erc6909

/-- Success-shape characterization of `_do_update`: the debit leg either
skips (zero `from_`) or subtracts a sufficient balance, the credit leg
either skips (zero `to_`) or adds without overflow, and no other field of
the state is touched. -/
theorem do_update_ok {st st' : Erc6909State} {f t : Address} {id amount : Nat}
    (h : _do_update st f t id amount = .ok st') :
    ∃ mid : Erc6909State,
      ((f = 0 ∧ mid = st) ∨
        (f ≠ 0 ∧ amount ≤ st.balances f id ∧
          mid = { st with
                  balances :=
                    setBal st.balances f id (st.balances f id - amount) })) ∧
      ((t = 0 ∧ st' = mid) ∨
        (t ≠ 0 ∧ mid.balances t id + amount < MOD ∧
          st' = { mid with
                  balances :=
                    setBal mid.balances t id (mid.balances t id + amount) })) := by
  unfold _do_update at h
  rw [Outcome.bind_eq_ok] at h
  obtain ⟨mid, hmid, hrest⟩ := h
  refine ⟨mid, ?_, ?_⟩
  · by_cases hf : f = 0
    · rw [if_pos hf] at hmid
      exact Or.inl ⟨hf, (Outcome.ok.inj hmid).symm⟩
    · rw [if_neg hf] at hmid
      simp only [balance_of] at hmid
      split at hmid
      · cases hmid
      · rename_i hlt
        have hle : amount ≤ st.balances f id := Nat.le_of_not_lt hlt
        have hmid' := (Outcome.ok.inj hmid).symm
        rw [subAssignUnchecked_of_le hle] at hmid'
        exact Or.inr ⟨hf, hle, hmid'⟩
  · by_cases ht : t = 0
    · rw [if_pos ht] at hrest
      exact Or.inl ⟨ht, (Outcome.ok.inj hrest).symm⟩
    · rw [if_neg ht] at hrest
      rw [Outcome.bind_eq_ok] at hrest
      obtain ⟨v, hv, hst'⟩ := hrest
      rw [addAssignChecked_eq_ok] at hv
      simp only [balance_of] at hv
      obtain ⟨hvlt, hveq⟩ := hv
      subst hveq
      exact Or.inr ⟨ht, hvlt, (Outcome.ok.inj hst').symm⟩

/-- `_do_update` never touches the allowances or operator-approvals maps. -/
theorem do_update_auth {st st' : Erc6909State} {f t : Address} {id amount : Nat}
    (h : _do_update st f t id amount = .ok st') :
    st'.operatorApprovals = st.operatorApprovals ∧
      st'.allowances = st.allowances := by
  obtain ⟨mid, hdebit, hcredit⟩ := do_update_ok h
  have h1 : mid.operatorApprovals = st.operatorApprovals ∧
      mid.allowances = st.allowances := by
    rcases hdebit with ⟨_, h⟩ | ⟨_, _, h⟩ <;> rw [h] <;> exact ⟨rfl, rfl⟩
  rcases hcredit with ⟨_, h⟩ | ⟨_, _, h⟩ <;> rw [h] <;>
    exact ⟨h1.1, h1.2⟩

end Erc6909

end Erc6909Spec

namespace Erc6909Spec

theorem setBal_zero_row (b : Address → Nat → Nat) {a : Address} (id v : Nat)
    (ha : a ≠ 0) (i : Nat) : setBal b a id v 0 i = b 0 i := by
  unfold setBal
  rw [if_neg]
  rintro ⟨h0, -⟩
  exact ha h0.symm

theorem sum_if_update (f : Address → Nat) (a : Address) (v : Nat) (ha : a ≠ 0) :
    (∑ b ∈ Finset.univ.erase (0 : Address), (if b = a then v else f b)) + f a
      = (∑ b ∈ Finset.univ.erase (0 : Address), f b) + v := by
  have haS : a ∈ Finset.univ.erase (0 : Address) :=
    Finset.mem_erase.mpr ⟨ha, Finset.mem_univ a⟩
  rw [← Finset.add_sum_erase (Finset.univ.erase (0 : Address))
      (fun b => if b = a then v else f b) haS,
    ← Finset.add_sum_erase (Finset.univ.erase (0 : Address)) f haS]
  have hcongr :
      ∑ b ∈ (Finset.univ.erase (0 : Address)).erase a,
        (if b = a then v else f b)
        = ∑ b ∈ (Finset.univ.erase (0 : Address)).erase a, f b :=
    Finset.sum_congr rfl fun b hb => if_neg (Finset.mem_erase.mp hb).1
  rw [if_pos rfl, hcongr]
  omega

theorem sum_setBal_same (bal : Address → Nat → Nat) {a : Address} (id v : Nat)
    (ha : a ≠ 0) :
    (∑ b ∈ Finset.univ.erase (0 : Address), setBal bal a id v b id) + bal a id
      = (∑ b ∈ Finset.univ.erase (0 : Address), bal b id) + v := by
  have hpt : ∀ b : Address, setBal bal a id v b id
      = if b = a then v else bal b id := by
    intro b; simp [setBal]
  rw [Finset.sum_congr rfl fun b _ => hpt b]
  exact sum_if_update (fun b => bal b id) a v ha

theorem sum_setBal_other (bal : Address → Nat → Nat) (a : Address) (id v : Nat)
    {i : Nat} (hi : i ≠ id) :
    (∑ b ∈ Finset.univ.erase (0 : Address), setBal bal a id v b i)
      = ∑ b ∈ Finset.univ.erase (0 : Address), bal b i := by
  refine Finset.sum_congr rfl fun b _ => ?_
  unfold setBal
  rw [if_neg]
  rintro ⟨-, h⟩
  exact hi h

namespace Erc6909

/-- Effect of one `_do_update` on the zero row and the per-id balance sums. -/
theorem do_update_sum {st st' : Erc6909State} {f t : Address} {id amount : Nat}
    (h : _do_update st f t id amount = .ok st') :
    (∀ i, st'.balances 0 i = st.balances 0 i) ∧
    (sumBal st' id + (if f = 0 then 0 else amount)
        = sumBal st id + (if t = 0 then 0 else amount)) ∧
    (∀ i, i ≠ id → sumBal st' i = sumBal st i) := by
  obtain ⟨mid, hdebit, hcredit⟩ := do_update_ok h
  rcases hdebit with ⟨hf, hmid⟩ | ⟨hf, hle, hmid⟩ <;>
    rcases hcredit with ⟨ht, hst⟩ | ⟨ht, hov, hst⟩
  · rw [hst, hmid]
    exact ⟨fun i => rfl, by rw [if_pos hf, if_pos ht], fun i _ => rfl⟩
  · rw [hst, hmid]
    rw [hmid] at hov
    refine ⟨fun i => setBal_zero_row _ _ _ ht i, ?_, ?_⟩
    · have e2 := sum_setBal_same st.balances id (st.balances t id + amount) ht
      rw [if_pos hf, if_neg ht]
      simp only [sumBal]
      omega
    · intro i hi
      simp only [sumBal]
      exact sum_setBal_other _ _ _ _ hi
  · rw [hst, hmid]
    refine ⟨fun i => setBal_zero_row _ _ _ hf i, ?_, ?_⟩
    · have e1 := sum_setBal_same st.balances id (st.balances f id - amount) hf
      rw [if_neg hf, if_pos ht]
      simp only [sumBal]
      omega
    · intro i hi
      simp only [sumBal]
      exact sum_setBal_other _ _ _ _ hi
  · rw [hst, hmid]
    rw [hmid] at hov
    refine ⟨?_, ?_, ?_⟩
    · intro i
      exact ((setBal_zero_row _ _ _ ht i).trans (setBal_zero_row _ _ _ hf i) :
        setBal (setBal st.balances f id (st.balances f id - amount)) t id
            ((setBal st.balances f id (st.balances f id - amount)) t id + amount)
            0 i
          = st.balances 0 i)
    · have e1 := sum_setBal_same st.balances id (st.balances f id - amount) hf
      have e2 := sum_setBal_same
        (setBal st.balances f id (st.balances f id - amount)) id
        (setBal st.balances f id (st.balances f id - amount) t id + amount) ht
      rw [if_neg hf, if_neg ht]
      simp only [sumBal]
      omega
    · intro i hi
      simp only [sumBal]
      calc ∑ b ∈ Finset.univ.erase (0 : Address),
            setBal (setBal st.balances f id (st.balances f id - amount)) t id
              (setBal st.balances f id (st.balances f id - amount) t id + amount)
              b i
          = ∑ b ∈ Finset.univ.erase (0 : Address),
              setBal st.balances f id (st.balances f id - amount) b i :=
            sum_setBal_other _ _ _ _ hi
        _ = ∑ b ∈ Finset.univ.erase (0 : Address), st.balances b i :=
            sum_setBal_other _ _ _ _ hi

/-- Effect of the `_update` loop on the zero row, the per-id balance sums,
and the untouched authorization maps. -/
theorem updateFold_ok_effects {f t : Address} (l : List (Nat × Nat)) :
    ∀ {st st' : Erc6909State}, updateFold f t st l = .ok st' →
    (∀ i, st'.balances 0 i = st.balances 0 i) ∧
    (∀ i, sumBal st' i + (if f = 0 then 0 else amtSum i l)
        = sumBal st i + (if t = 0 then 0 else amtSum i l)) ∧
    st'.operatorApprovals = st.operatorApprovals ∧
    st'.allowances = st.allowances := by
  induction l with
  | nil =>
      intro st st' h
      unfold updateFold at h
      have hss := (Outcome.ok.inj h).symm
      subst hss
      exact ⟨fun i => rfl, fun i => by simp [amtSum], rfl, rfl⟩
  | cons p rest ih =>
      intro st st' h
      unfold updateFold at h
      rw [Outcome.bind_eq_ok] at h
      obtain ⟨st1, h1, h2⟩ := h
      obtain ⟨z1, s1, a1⟩ := do_update_sum h1
      have au1 := do_update_auth h1
      obtain ⟨zr, sr, oa, al⟩ := ih h2
      refine ⟨fun i => (zr i).trans (z1 i), ?_, oa.trans au1.1, al.trans au1.2⟩
      intro i
      have e2 := sr i
      by_cases hi : i = p.1
      · have hsum : amtSum i (p :: rest) = p.2 + amtSum i rest := by
          rw [show amtSum i (p :: rest)
              = (if p.1 = i then p.2 else 0) + amtSum i rest from rfl,
            if_pos hi.symm]
        have e1 : sumBal st1 i + (if f = 0 then 0 else p.2)
            = sumBal st i + (if t = 0 then 0 else p.2) := by
          rw [hi]; exact s1
        rw [hsum]
        by_cases hf : f = 0 <;> by_cases ht : t = 0
        · simp only [if_pos hf, if_pos ht] at e1 e2 ⊢; omega
        · simp only [if_pos hf, if_neg ht] at e1 e2 ⊢; omega
        · simp only [if_neg hf, if_pos ht] at e1 e2 ⊢; omega
        · simp only [if_neg hf, if_neg ht] at e1 e2 ⊢; omega
      · have hsum : amtSum i (p :: rest) = amtSum i rest := by
          rw [show amtSum i (p :: rest)
              = (if p.1 = i then p.2 else 0) + amtSum i rest from rfl,
            if_neg (fun hh => hi hh.symm), Nat.zero_add]
        have e1 := a1 i hi
        rw [hsum]
        by_cases hf : f = 0 <;> by_cases ht : t = 0
        · simp only [if_pos hf, if_pos ht] at e2 ⊢; omega
        · simp only [if_pos hf, if_neg ht] at e2 ⊢; omega
        · simp only [if_neg hf, if_pos ht] at e2 ⊢; omega
        · simp only [if_neg hf, if_neg ht] at e2 ⊢; omega

end Erc6909

end Erc6909Spec

namespace Erc6909Spec

namespace Erc6909

/-- A successful base `_update` means the lengths matched and the loop ran. -/
theorem update_ok {st st' : Erc6909State} {f t : Address}
    {ids amounts : List Nat} (h : _update st f t ids amounts = .ok st') :
    ids.length = amounts.length ∧
      updateFold f t st (ids.zip amounts) = .ok st' := by
  unfold _update require_equal_arrays_length at h
  rw [Outcome.bind_eq_ok] at h
  obtain ⟨u, hu, hrun⟩ := h
  split at hu
  · cases hu
  · rename_i hne
    exact ⟨not_ne_iff.mp hne, hrun⟩

end Erc6909

namespace Erc6909Supply

/-- Value and representability tracking for the supply mint leg. -/
theorem supplyMintFold_ok (l : List (Nat × Nat)) :
    ∀ {ts ts' : Nat → Nat}, supplyMintFold ts l = .ok ts' →
    ∀ i, ts' i = ts i + amtSum i l ∧ (ts i < MOD → ts' i < MOD) := by
  induction l with
  | nil =>
      intro ts ts' h i
      have hts := (Outcome.ok.inj h).symm
      subst hts
      exact ⟨by simp [amtSum], fun hlt => hlt⟩
  | cons p rest ih =>
      intro ts ts' h i
      unfold supplyMintFold at h
      rw [Outcome.bind_eq_ok] at h
      obtain ⟨v, hv, hrec⟩ := h
      rw [addAssignChecked_eq_ok] at hv
      obtain ⟨hvlt, hveq⟩ := hv
      subst hveq
      have ihh := ih hrec i
      have hcons : amtSum i (p :: rest)
          = (if p.1 = i then p.2 else 0) + amtSum i rest := rfl
      by_cases hi : p.1 = i
      · have hset : setSupply ts p.1 (ts p.1 + p.2) i = ts i + p.2 := by
          unfold setSupply
          rw [if_pos hi.symm, hi]
        have hvlt' : ts i + p.2 < MOD := by rw [← hi]; exact hvlt
        constructor
        · rw [ihh.1, hset, hcons, if_pos hi]
          omega
        · intro _
          exact ihh.2 (by rw [hset]; exact hvlt')
      · have hset : setSupply ts p.1 (ts p.1 + p.2) i = ts i := by
          unfold setSupply
          rw [if_neg (fun hh => hi hh.symm)]
        constructor
        · rw [ihh.1, hset, hcons, if_neg hi]
          omega
        · intro hlt
          exact ihh.2 (by rw [hset]; exact hlt)

/-- The supply mint leg never returns an error value (it can only panic). -/
theorem supplyMintFold_no_err (l : List (Nat × Nat)) :
    ∀ {ts : Nat → Nat} {e : Error}, supplyMintFold ts l ≠ .err e := by
  induction l with
  | nil => intro ts e h; cases h
  | cons p rest ih =>
      intro ts e h
      unfold supplyMintFold at h
      unfold addAssignChecked at h
      split at h
      · cases h
      · exact ih h

/-- Exactness of the supply burn leg when the amounts are covered. -/
theorem supplyBurnFold_ok (l : List (Nat × Nat)) :
    ∀ ts : Nat → Nat, (∀ i, amtSum i l ≤ ts i) →
    ∀ i, supplyBurnFold ts l i + amtSum i l = ts i := by
  induction l with
  | nil =>
      intro ts hbound i
      show ts i + amtSum i [] = ts i
      simp [amtSum]
  | cons p rest ih =>
      intro ts hbound i
      have hcons : ∀ j, amtSum j (p :: rest)
          = (if p.1 = j then p.2 else 0) + amtSum j rest := fun j => rfl
      have hp : p.2 + amtSum p.1 rest ≤ ts p.1 := by
        have := hbound p.1
        rw [hcons p.1, if_pos rfl] at this
        exact this
      have hsub : subAssignUnchecked (ts p.1) p.2 = ts p.1 - p.2 :=
        subAssignUnchecked_of_le (by omega)
      have hbound' : ∀ j, amtSum j rest
          ≤ setSupply ts p.1 (subAssignUnchecked (ts p.1) p.2) j := by
        intro j
        unfold setSupply
        by_cases hj : j = p.1
        · rw [if_pos hj, hsub, hj]
          omega
        · rw [if_neg hj]
          have := hbound j
          rw [hcons j] at this
          omega
      have ihh := ih _ hbound' i
      show supplyBurnFold (setSupply ts p.1 (subAssignUnchecked (ts p.1) p.2))
          rest i + amtSum i (p :: rest) = ts i
      rw [hcons i] at *
      by_cases hi : p.1 = i
      · rw [if_pos hi]
        have hset : setSupply ts p.1 (subAssignUnchecked (ts p.1) p.2) i
            = ts i - p.2 := by
          unfold setSupply
          rw [if_pos hi.symm, hsub, hi]
        rw [hset] at ihh
        have hple : p.2 ≤ ts i := by rw [← hi]; omega
        omega
      · rw [if_neg hi]
        have hset : setSupply ts p.1 (subAssignUnchecked (ts p.1) p.2) i
            = ts i := by
          unfold setSupply
          rw [if_neg (fun hh => hi hh.symm)]
        rw [hset] at ihh
        omega

/-- Success-shape characterization of the extension's `_update`. -/
theorem supply_update_ok {st st' : Erc6909SupplyState} {f t : Address}
    {ids amounts : List Nat}
    (h : _update st f t ids amounts = .ok st') :
    ∃ (b : Erc6909State) (ts1 : Nat → Nat),
      Erc6909._update st.erc6909 f t ids amounts = .ok b ∧
      ((f = 0 ∧ supplyMintFold st.totalSupply (ids.zip amounts) = .ok ts1) ∨
        (f ≠ 0 ∧ ts1 = st.totalSupply)) ∧
      st'.erc6909 = b ∧
      ((t = 0 ∧ st'.totalSupply = supplyBurnFold ts1 (ids.zip amounts)) ∨
        (t ≠ 0 ∧ st'.totalSupply = ts1)) := by
  unfold _update at h
  rw [Outcome.bind_eq_ok] at h
  obtain ⟨b, hb, h2⟩ := h
  rw [Outcome.bind_eq_ok] at h2
  obtain ⟨ts1, hts1, h3⟩ := h2
  have hst' : st' =
      { erc6909 := b,
        totalSupply :=
          if t = 0 then supplyBurnFold ts1 (ids.zip amounts) else ts1 } :=
    (Outcome.ok.inj h3).symm
  refine ⟨b, ts1, hb, ?_, ?_, ?_⟩
  · by_cases hf : f = 0
    · rw [if_pos hf] at hts1
      exact Or.inl ⟨hf, hts1⟩
    · rw [if_neg hf] at hts1
      exact Or.inr ⟨hf, (Outcome.ok.inj hts1).symm⟩
  · rw [hst']
  · by_cases ht : t = 0
    · rw [hst', if_pos ht]
      exact Or.inl ⟨ht, rfl⟩
    · rw [hst', if_neg ht]
      exact Or.inr ⟨ht, rfl⟩

end Erc6909Supply

end Erc6909Spec

namespace Erc6909Spec

namespace Erc6909Supply

/-- The extension's `_update` preserves the supply invariant. -/
theorem supply_update_inv {st st' : Erc6909SupplyState} {f t : Address}
    {ids amounts : List Nat} (hInv : Inv st)
    (h : _update st f t ids amounts = .ok st') : Inv st' := by
  obtain ⟨b, ts1, hbase, hmint, hb, hburn⟩ := supply_update_ok h
  obtain ⟨hlen, hfold⟩ := Erc6909.update_ok hbase
  obtain ⟨hz, hs, -, -⟩ := Erc6909.updateFold_ok_effects _ hfold
  intro i
  have hz0 := (hInv i).1
  have hsum0 := (hInv i).2
  have hsumi := hs i
  constructor
  · rw [hb, hz i, hz0]
  · rcases hmint with ⟨hf, hm⟩ | ⟨hf, hts1⟩ <;>
      rcases hburn with ⟨ht, hbn⟩ | ⟨ht, hts⟩
    · rw [if_pos hf, if_pos ht] at hsumi
      have hm1 := supplyMintFold_ok _ hm
      have hbound : ∀ j, amtSum j (ids.zip amounts) ≤ ts1 j := fun j => by
        rw [(hm1 j).1]; omega
      have hb1 := supplyBurnFold_ok _ ts1 hbound i
      have hmi := (hm1 i).1
      rw [hb, hbn]
      omega
    · rw [if_pos hf, if_neg ht] at hsumi
      have hmi := (supplyMintFold_ok _ hm i).1
      rw [hb, hts]
      omega
    · rw [if_neg hf, if_pos ht] at hsumi
      have hbound : ∀ j, amtSum j (ids.zip amounts) ≤ ts1 j := fun j => by
        have hsj := hs j
        rw [if_neg hf, if_pos ht] at hsj
        have h0j := (hInv j).2
        rw [hts1]
        omega
      have hb1 := supplyBurnFold_ok _ ts1 hbound i
      have hts1i : ts1 i = st.totalSupply i := by rw [hts1]
      rw [hb, hbn]
      omega
    · rw [if_neg hf, if_neg ht] at hsumi
      have hts1i : ts1 i = st.totalSupply i := by rw [hts1]
      rw [hb, hts]
      omega

end Erc6909Supply

namespace Erc6909

/-- With a zero `from_` and non-zero `to_`, the `_update` loop never
returns an error value. -/
theorem updateFold_mint_no_err {t : Address} (ht : t ≠ 0)
    (l : List (Nat × Nat)) :
    ∀ {st : Erc6909State} {e : Error}, updateFold 0 t st l ≠ .err e := by
  induction l with
  | nil => intro st e h; cases h
  | cons p rest ih =>
      intro st e h
      unfold updateFold at h
      simp only [_do_update, if_true] at h
      simp only [Outcome.bind] at h
      rw [if_neg ht] at h
      unfold addAssignChecked at h
      by_cases hov : MOD ≤ balance_of st t p.1 + p.2
      · rw [if_pos hov] at h
        simp only [Outcome.bind] at h
        exact Outcome.noConfusion h
      · rw [if_neg hov] at h
        simp only [Outcome.bind] at h
        exact ih h

/-- With a zero `from_` and non-zero `to_`, a successful `_update` loop
accumulates exactly the batch amounts on the recipient's balances and
keeps them representable. -/
theorem updateFold_mint_to {t : Address} (ht : t ≠ 0)
    (l : List (Nat × Nat)) :
    ∀ {st st' : Erc6909State}, updateFold 0 t st l = .ok st' →
    ∀ i, st'.balances t i = st.balances t i + amtSum i l ∧
      (st.balances t i < MOD → st'.balances t i < MOD) := by
  induction l with
  | nil =>
      intro st st' h i
      have hss := (Outcome.ok.inj h).symm
      subst hss
      exact ⟨by simp [amtSum], fun hlt => hlt⟩
  | cons p rest ih =>
      intro st st' h i
      unfold updateFold at h
      rw [Outcome.bind_eq_ok] at h
      obtain ⟨st1, h1, h2⟩ := h
      obtain ⟨mid, hdebit, hcredit⟩ := do_update_ok h1
      have hmid : mid = st := by
        rcases hdebit with ⟨-, hm⟩ | ⟨hf0, -⟩
        · exact hm
        · exact absurd rfl hf0
      subst hmid
      rcases hcredit with ⟨ht0, -⟩ | ⟨-, hov, hst1⟩
      · exact absurd ht0 ht
      · have ihh := ih h2 i
        have hcons : amtSum i (p :: rest)
            = (if p.1 = i then p.2 else 0) + amtSum i rest := rfl
        rw [hst1] at ihh
        dsimp only at ihh
        by_cases hi : p.1 = i
        · have hset : setBal mid.balances t p.1 (mid.balances t p.1 + p.2) t i
              = mid.balances t i + p.2 := by
            unfold setBal
            rw [if_pos ⟨rfl, hi.symm⟩, hi]
          rw [hset] at ihh
          have hovi : mid.balances t i + p.2 < MOD := by rw [← hi]; exact hov
          constructor
          · rw [ihh.1, hcons, if_pos hi]
            omega
          · intro _
            exact ihh.2 hovi
        · have hset : setBal mid.balances t p.1 (mid.balances t p.1 + p.2) t i
              = mid.balances t i := by
            unfold setBal
            rw [if_neg]
            rintro ⟨-, hh⟩
            exact hi hh.symm
          rw [hset] at ihh
          constructor
          · rw [ihh.1, hcons, if_neg hi]
            omega
          · exact ihh.2

end Erc6909

end Erc6909Spec

namespace Erc6909Spec

theorem updateFold_single_zip {f t : Address} {st : Erc6909State}
    {id amount : Nat} :
    Erc6909.updateFold f t st ([id].zip [amount])
      = Erc6909._do_update st f t id amount := by
  cases hdo : Erc6909._do_update st f t id amount <;>
    simp [Erc6909.updateFold, Outcome.bind, hdo]

namespace Erc6909

/-- A successful `_transfer` means both endpoints are non-zero and the
single-pair loop ran. -/
theorem transfer_ok_fold {st st' : Erc6909State} {f t : Address}
    {id amount : Nat} (h : _transfer st f t id amount = .ok st') :
    f ≠ 0 ∧ t ≠ 0 ∧ _do_update st f t id amount = .ok st' := by
  unfold _transfer at h
  by_cases hf : f = 0
  · rw [if_pos hf] at h
    exact Outcome.noConfusion h
  rw [if_neg hf] at h
  by_cases ht : t = 0
  · rw [if_pos ht] at h
    exact Outcome.noConfusion h
  rw [if_neg ht] at h
  have hfold := (update_ok h).2
  rw [updateFold_single_zip] at hfold
  exact ⟨hf, ht, hfold⟩

/-- `_transfer` never touches the allowances or operator-approvals maps. -/
theorem transfer_auth {st st' : Erc6909State} {f t : Address}
    {id amount : Nat} (h : _transfer st f t id amount = .ok st') :
    st'.operatorApprovals = st.operatorApprovals ∧
      st'.allowances = st.allowances := by
  obtain ⟨-, -, hdo⟩ := transfer_ok_fold h
  exact do_update_auth hdo

/-- A successful base `_update` keeps the authorization maps unchanged. -/
theorem update_auth {st st' : Erc6909State} {f t : Address}
    {ids amounts : List Nat} (h : _update st f t ids amounts = .ok st') :
    st'.operatorApprovals = st.operatorApprovals ∧
      st'.allowances = st.allowances := by
  obtain ⟨-, hfold⟩ := update_ok h
  obtain ⟨-, -, hoa, hal⟩ := updateFold_ok_effects _ hfold
  exact ⟨hoa, hal⟩

/-- A successful `approve` only changes the allowances map. -/
theorem approve_ok_fields {st0 b : Erc6909State} {caller spender : Address}
    {id amount : Nat} (h : approve st0 caller spender id amount = .ok b) :
    b.balances = st0.balances ∧ b.operatorApprovals = st0.operatorApprovals := by
  unfold approve _approve at h
  by_cases hc : caller = 0
  · rw [if_pos hc] at h
    exact Outcome.noConfusion h
  rw [if_neg hc] at h
  by_cases hs : spender = 0
  · rw [if_pos hs] at h
    exact Outcome.noConfusion h
  rw [if_neg hs] at h
  have hb := (Outcome.ok.inj h).symm
  rw [hb]
  exact ⟨rfl, rfl⟩

/-- A successful `set_operator` only changes the operator-approvals map. -/
theorem set_operator_ok_fields {st0 b : Erc6909State} {caller spender : Address}
    {approved : Bool} (h : set_operator st0 caller spender approved = .ok b) :
    b.balances = st0.balances ∧ b.allowances = st0.allowances := by
  unfold set_operator _set_operator at h
  by_cases hc : caller = 0
  · rw [if_pos hc] at h
    exact Outcome.noConfusion h
  rw [if_neg hc] at h
  by_cases hs : spender = 0
  · rw [if_pos hs] at h
    exact Outcome.noConfusion h
  rw [if_neg hs] at h
  have hb := (Outcome.ok.inj h).symm
  rw [hb]
  exact ⟨rfl, rfl⟩

end Erc6909

/-- The invariant only depends on the balances and the supply map. -/
theorem inv_congr {st st' : Erc6909SupplyState}
    (hbal : st'.erc6909.balances = st.erc6909.balances)
    (hts : st'.totalSupply = st.totalSupply) (hInv : Inv st) : Inv st' := by
  intro i
  have h0 := (hInv i).1
  have h1 := (hInv i).2
  constructor
  · rw [hbal]
    exact h0
  · simp only [sumBal]
    rw [hbal, hts]
    exact h1

namespace Erc6909Supply

/-- The extension's `_transfer` preserves the supply invariant. -/
theorem supply_transfer_inv {st st' : Erc6909SupplyState} {f t : Address}
    {id amount : Nat} (hInv : Inv st)
    (h : _transfer st f t id amount = .ok st') : Inv st' := by
  unfold _transfer at h
  by_cases hf : f = 0
  · rw [if_pos hf] at h
    exact Outcome.noConfusion h
  rw [if_neg hf] at h
  by_cases ht : t = 0
  · rw [if_pos ht] at h
    exact Outcome.noConfusion h
  rw [if_neg ht] at h
  exact supply_update_inv hInv h

/-- The extension's `_do_mint` preserves the supply invariant. -/
theorem supply_do_mint_inv {st st' : Erc6909SupplyState} {t : Address}
    {ids amounts : List Nat} (hInv : Inv st)
    (h : _do_mint st t ids amounts = .ok st') : Inv st' := by
  unfold _do_mint at h
  by_cases ht : t = 0
  · rw [if_pos ht] at h
    exact Outcome.noConfusion h
  rw [if_neg ht] at h
  exact supply_update_inv hInv h

/-- The extension's `_do_burn` preserves the supply invariant. -/
theorem supply_do_burn_inv {st st' : Erc6909SupplyState} {f : Address}
    {ids amounts : List Nat} (hInv : Inv st)
    (h : _do_burn st f ids amounts = .ok st') : Inv st' := by
  unfold _do_burn at h
  by_cases hf : f = 0
  · rw [if_pos hf] at h
    exact Outcome.noConfusion h
  rw [if_neg hf] at h
  exact supply_update_inv hInv h

/-- A successful extension `_update` keeps the authorization maps of the
contained ledger unchanged. -/
theorem supply_update_auth {st st' : Erc6909SupplyState} {f t : Address}
    {ids amounts : List Nat} (h : _update st f t ids amounts = .ok st') :
    st'.erc6909.operatorApprovals = st.erc6909.operatorApprovals ∧
      st'.erc6909.allowances = st.erc6909.allowances := by
  obtain ⟨b, ts1, hbase, -, hb, -⟩ := supply_update_ok h
  have hba := Erc6909.update_auth hbase
  rw [hb]
  exact hba

/-- A successful extension `_transfer` keeps the authorization maps
unchanged. -/
theorem supply_transfer_auth {st st' : Erc6909SupplyState} {f t : Address}
    {id amount : Nat} (h : _transfer st f t id amount = .ok st') :
    st'.erc6909.operatorApprovals = st.erc6909.operatorApprovals ∧
      st'.erc6909.allowances = st.erc6909.allowances := by
  unfold _transfer at h
  by_cases hf : f = 0
  · rw [if_pos hf] at h
    exact Outcome.noConfusion h
  rw [if_neg hf] at h
  by_cases ht : t = 0
  · rw [if_pos ht] at h
    exact Outcome.noConfusion h
  rw [if_neg ht] at h
  exact supply_update_auth h

/-- A successful extension `_do_mint` keeps the authorization maps
unchanged. -/
theorem supply_do_mint_auth {st st' : Erc6909SupplyState} {t : Address}
    {ids amounts : List Nat} (h : _do_mint st t ids amounts = .ok st') :
    st'.erc6909.operatorApprovals = st.erc6909.operatorApprovals ∧
      st'.erc6909.allowances = st.erc6909.allowances := by
  unfold _do_mint at h
  by_cases ht : t = 0
  · rw [if_pos ht] at h
    exact Outcome.noConfusion h
  rw [if_neg ht] at h
  exact supply_update_auth h

/-- A successful extension `_do_burn` keeps the authorization maps
unchanged. -/
theorem supply_do_burn_auth {st st' : Erc6909SupplyState} {f : Address}
    {ids amounts : List Nat} (h : _do_burn st f ids amounts = .ok st') :
    st'.erc6909.operatorApprovals = st.erc6909.operatorApprovals ∧
      st'.erc6909.allowances = st.erc6909.allowances := by
  unfold _do_burn at h
  by_cases hf : f = 0
  · rw [if_pos hf] at h
    exact Outcome.noConfusion h
  rw [if_neg hf] at h
  exact supply_update_auth h

end Erc6909Supply

end Erc6909Spec

namespace Erc6909Spec

/-- C1: the spec says the supply extension's `transferFrom` delegates to
the contained base ledger unchanged (operator check, allowance
consumption, `InsufficientAllowance`). The code does not: `supply.rs`'s
`transfer_from` forwards straight to `Self::_transfer`, ignoring the
caller. At the concrete input below (caller `2`, sender `1`, receiver
`3`, allowance `0`, no operator), the base ledger rejects the call with
`InsufficientAllowance` while the extension succeeds and moves the
tokens. -/
theorem claim_c1_supply_transferFrom_no_auth :
    Erc6909.transfer_from oneHolderState.erc6909 2 1 3 5 5 =
      .err (.InsufficientAllowance 2 0 0 5) ∧
    (Erc6909Supply.transfer_from oneHolderState 2 1 3 5 5).isOk = true ∧
    ((Erc6909Supply.transfer_from oneHolderState 2 1 3 5 5).getOk
        oneHolderState).erc6909.balances 3 5 = 5 :=
  ⟨rfl, rfl, rfl⟩

/-- C2: in the base ledger's `transferFrom`, the stored allowance
`allowances[sender][caller][id]` is decremented by exactly `amount` iff
the caller is neither the sender nor an operator of the sender; in that
case the call fails with `InsufficientAllowance` when the current
allowance is below `amount`, and otherwise (operator or self-transfer)
the allowance entry is left untouched by a successful call. -/
theorem claim_c2_transferFrom_allowance (st : Erc6909State)
    (caller sender receiver : Address) (id amount : Nat) :
    ((¬Erc6909.is_operator st sender caller ∧ sender ≠ caller) →
      (Erc6909.allowance st sender caller id < amount →
        Erc6909.transfer_from st caller sender receiver id amount =
          .err (.InsufficientAllowance caller
            (Erc6909.allowance st sender caller id)
            (Erc6909.allowance st sender caller id) id)) ∧
      (∀ st', Erc6909.transfer_from st caller sender receiver id amount
          = .ok st' →
        st'.allowances sender caller id + amount
          = st.allowances sender caller id)) ∧
    ((Erc6909.is_operator st sender caller ∨ sender = caller) →
      ∀ st', Erc6909.transfer_from st caller sender receiver id amount
          = .ok st' →
        st'.allowances sender caller id = st.allowances sender caller id) := by
  constructor
  · intro hcond
    constructor
    · intro hlt
      unfold Erc6909.transfer_from
      rw [if_pos hcond]
      unfold Erc6909._spend_allowance
      simp only
      rw [if_pos hlt]
      rfl
    · intro st' hok
      unfold Erc6909.transfer_from at hok
      rw [if_pos hcond] at hok
      rw [Outcome.bind_eq_ok] at hok
      obtain ⟨st1, hsp, htr⟩ := hok
      unfold Erc6909._spend_allowance at hsp
      simp only at hsp
      split at hsp
      · exact Outcome.noConfusion hsp
      · rename_i hge
        have hle : amount ≤ Erc6909.allowance st sender caller id :=
          Nat.le_of_not_lt hge
        have hst1 := (Outcome.ok.inj hsp).symm
        have hal := (Erc6909.transfer_auth htr).2
        rw [hal, hst1]
        dsimp only
        unfold setAllow
        rw [if_pos ⟨rfl, rfl, rfl⟩, subAssignUnchecked_of_le hle]
        have : Erc6909.allowance st sender caller id
            = st.allowances sender caller id := rfl
        omega
  · intro hcond st' hok
    unfold Erc6909.transfer_from at hok
    rw [if_neg] at hok
    · simp only [Outcome.bind] at hok
      have hal := (Erc6909.transfer_auth hok).2
      rw [hal]
    · rintro ⟨hnop, hne⟩
      rcases hcond with hop | heq
      · exact hnop hop
      · exact hne heq

/-- Witness for C2 at a concrete state: address `1` holds tokens, caller
`2` has zero allowance and is no operator, so a `transferFrom` for `9`
tokens fails with `InsufficientAllowance`. -/
theorem claim_c2_transferFrom_allowance_witness :
    Erc6909.transfer_from oneHolderState.erc6909 2 1 3 5 9 =
      .err (.InsufficientAllowance 2 0 0 5) := by
  have h := (claim_c2_transferFrom_allowance oneHolderState.erc6909
    2 1 3 5 9).1
  have hcond : ¬Erc6909.is_operator oneHolderState.erc6909 1 2 ∧
      (1 : Address) ≠ 2 := by
    constructor
    · decide
    · decide
  have hlt : Erc6909.allowance oneHolderState.erc6909 1 2 5 < 9 := by decide
  exact (h hcond).1 hlt

/-- C8: `supportsInterface` answers true exactly on the claimed interface
identifiers: `0x0f632fb3` and `0x01ffc9a7` for the base ledger, and
additionally `0xbd85b039` for the supply extension; on every other
4-byte value, in particular `0xffffffff`, it answers false. -/
theorem claim_c8_supports_interface (i : Nat) :
    (Erc6909.supports_interface i = true ↔
      (i = 0x0f632fb3 ∨ i = 0x01ffc9a7)) ∧
    (Erc6909Supply.supports_interface i = true ↔
      (i = 0xbd85b039 ∨ i = 0x0f632fb3 ∨ i = 0x01ffc9a7)) ∧
    Erc6909.supports_interface 0xffffffff = false ∧
    Erc6909Supply.supports_interface 0xffffffff = false := by
  refine ⟨?_, ?_, by decide, by decide⟩
  · unfold Erc6909.supports_interface
      Erc6909.IERC6909_INTERFACE_ID Erc6909.IERC165_INTERFACE_ID
    simp [Bool.or_eq_true, beq_iff_eq]
  · unfold Erc6909Supply.supports_interface Erc6909.supports_interface
      Erc6909Supply.IERC6909SUPPLY_INTERFACE_ID
      Erc6909.IERC6909_INTERFACE_ID Erc6909.IERC165_INTERFACE_ID
    simp [Bool.or_eq_true, beq_iff_eq]
    tauto

end Erc6909Spec

namespace Erc6909Spec

namespace Erc6909

/-- Computation of `_do_update` on a self-transfer with sufficient,
representable balance: the debit is applied before the credit of the
same slot, so the slot ends where it started. -/
theorem do_update_self (st : Erc6909State) (a : Address) (id amount : Nat)
    (ha : a ≠ 0) (hamt : amount ≤ st.balances a id)
    (hwf : st.balances a id < MOD) :
    _do_update st a a id amount =
      .ok { st with
            balances :=
              setBal (setBal st.balances a id (st.balances a id - amount))
                a id (st.balances a id - amount + amount) } := by
  simp only [_do_update, balance_of]
  rw [if_neg ha, if_neg (Nat.not_lt.mpr hamt), subAssignUnchecked_of_le hamt]
  simp only [Outcome.bind]
  rw [if_neg ha]
  have hread : setBal st.balances a id (st.balances a id - amount) a id
      = st.balances a id - amount := by
    unfold setBal
    rw [if_pos ⟨rfl, rfl⟩]
  rw [hread]
  unfold addAssignChecked
  rw [if_neg (by omega : ¬ MOD ≤ st.balances a id - amount + amount)]

end Erc6909

/-- C10: a self-transfer by a non-zero address with a sufficient (and
representable) balance succeeds and leaves every balance slot exactly as
it was: the debit of the sender slot lands before the credit of the same
slot. -/
theorem claim_c10_self_transfer (st : Erc6909State) (a : Address)
    (id amount : Nat) (ha : a ≠ 0)
    (hamt : amount ≤ Erc6909.balance_of st a id)
    (hwf : Erc6909.balance_of st a id < MOD) :
    ∃ st', Erc6909.transfer st a a id amount = .ok st' ∧
      ∀ b i, st'.balances b i = st.balances b i := by
  refine ⟨{ st with
      balances :=
        setBal (setBal st.balances a id (st.balances a id - amount))
          a id (st.balances a id - amount + amount) }, ?_, ?_⟩
  · unfold Erc6909.transfer Erc6909._transfer
    rw [if_neg ha, if_neg ha]
    unfold Erc6909._update Erc6909.require_equal_arrays_length
    rw [if_neg (fun hh => hh rfl)]
    simp only [Outcome.bind]
    rw [updateFold_single_zip]
    exact Erc6909.do_update_self st a id amount ha hamt hwf
  · intro b i
    show setBal (setBal st.balances a id (st.balances a id - amount))
        a id (st.balances a id - amount + amount) b i = st.balances b i
    by_cases hb : b = a ∧ i = id
    · obtain ⟨hb1, hb2⟩ := hb
      have hamt' : amount ≤ st.balances a id := hamt
      unfold setBal
      rw [if_pos ⟨hb1, hb2⟩, hb1, hb2]
      omega
    · unfold setBal
      rw [if_neg hb, if_neg hb]

/-- Witness for C10: address `1` self-transfers `4` of token `3` in
`oneHolderState` and every balance is unchanged. -/
theorem claim_c10_self_transfer_witness :
    ∃ st', Erc6909.transfer oneHolderState.erc6909 1 1 3 4 = .ok st' ∧
      ∀ b i, st'.balances b i = oneHolderState.erc6909.balances b i :=
  claim_c10_self_transfer oneHolderState.erc6909 1 3 4 (by decide)
    (by decide) (by decide)

end Erc6909Spec

namespace Erc6909Spec

/-- Counterexample to C5 as stated: on a self-transfer (`receiver` equals
the sender), a successful `transfer` on the supply extension does NOT
decrease the sender's balance by the amount — the slot is debited and
then credited back, ending unchanged (`7`, not `7 - 7 = 0`). -/
theorem claim_c5_counterexample :
    (Erc6909Supply.transfer oneHolderState 1 1 3 7).isOk = true ∧
    ¬(((Erc6909Supply.transfer oneHolderState 1 1 3 7).getOk
          oneHolderState).erc6909.balances 1 3
        = oneHolderState.erc6909.balances 1 3 - 7) := by
  constructor
  · rfl
  · decide

/-- C5 (amended with `from ≠ to`, which the self-transfer counterexample
forces): for every successful `transfer(to, id, a)` on the supply
extension whose sender differs from the receiver, the sender's balance
decreases by exactly `a`, the receiver's balance increases by exactly
`a`, and `total_supply` is unchanged at every id. -/
theorem claim_c5_transfer_moves_amount (st : Erc6909SupplyState)
    (caller receiver : Address) (id amount : Nat)
    (st' : Erc6909SupplyState) (hne : caller ≠ receiver)
    (h : Erc6909Supply.transfer st caller receiver id amount = .ok st') :
    st'.erc6909.balances caller id + amount = st.erc6909.balances caller id ∧
    st'.erc6909.balances receiver id = st.erc6909.balances receiver id + amount ∧
    ∀ i, st'.totalSupply i = st.totalSupply i := by
  unfold Erc6909Supply.transfer Erc6909Supply._transfer at h
  by_cases hc0 : caller = 0
  · rw [if_pos hc0] at h
    exact Outcome.noConfusion h
  rw [if_neg hc0] at h
  by_cases hr0 : receiver = 0
  · rw [if_pos hr0] at h
    exact Outcome.noConfusion h
  rw [if_neg hr0] at h
  obtain ⟨b, ts1, hbase, hmint, hb, hburn⟩ := Erc6909Supply.supply_update_ok h
  have hts1 : ts1 = st.totalSupply := by
    rcases hmint with ⟨hf, -⟩ | ⟨-, hts⟩
    · exact absurd hf hc0
    · exact hts
  have hts' : st'.totalSupply = ts1 := by
    rcases hburn with ⟨ht, -⟩ | ⟨-, hts⟩
    · exact absurd ht hr0
    · exact hts
  obtain ⟨-, hfold⟩ := Erc6909.update_ok hbase
  rw [updateFold_single_zip] at hfold
  obtain ⟨mid, hdebit, hcredit⟩ := Erc6909.do_update_ok hfold
  rcases hdebit with ⟨hf, -⟩ | ⟨-, hle, hmid⟩
  · exact absurd hf hc0
  rcases hcredit with ⟨ht, -⟩ | ⟨-, hov, hbfin⟩
  · exact absurd ht hr0
  refine ⟨?_, ?_, fun i => by rw [hts', hts1]⟩
  · rw [hb, hbfin, hmid]
    dsimp only
    unfold setBal
    rw [if_neg (fun hh => hne hh.1), if_pos ⟨rfl, rfl⟩]
    omega
  · rw [hb, hbfin, hmid]
    dsimp only
    unfold setBal
    rw [if_pos ⟨rfl, rfl⟩, if_neg (fun hh => hne (And.left hh).symm)]

/-- Witness for the amended C5: in `oneHolderState`, address `1`
transfers `4` of token `3` to address `2`; the balances move by exactly
`4` and the supply is unchanged. -/
theorem claim_c5_transfer_moves_amount_witness :
    2 + 4 = 6 ∧
    ∀ st', Erc6909Supply.transfer oneHolderState 1 2 3 4 = .ok st' →
      st'.erc6909.balances 1 3 + 4 = oneHolderState.erc6909.balances 1 3 ∧
      st'.erc6909.balances 2 3 = oneHolderState.erc6909.balances 2 3 + 4 ∧
      ∀ i, st'.totalSupply i = oneHolderState.totalSupply i :=
  ⟨rfl, fun st' h =>
    claim_c5_transfer_moves_amount oneHolderState 1 2 3 4 st' (by decide) h⟩

end Erc6909Spec

namespace Erc6909Spec

/-- The single-holder demo state satisfies the supply invariant. -/
theorem inv_oneHolderState : Inv oneHolderState := by
  intro i
  refine ⟨rfl, ?_⟩
  show (∑ a ∈ Finset.univ.erase (0 : Address),
      oneHolderState.erc6909.balances a i) = oneHolderState.totalSupply i
  have hpt : ∀ a : Address,
      oneHolderState.erc6909.balances a i = if a = 1 then (7 : Nat) else 0 :=
    fun a => rfl
  rw [Finset.sum_congr rfl fun a _ => hpt a,
    Finset.sum_ite_eq' (Finset.univ.erase (0 : Address)) (1 : Address)
      (fun _ => (7 : Nat)),
    if_pos (Finset.mem_erase.mpr ⟨by decide, Finset.mem_univ _⟩)]
  rfl

/-- C3: after every successful public or internal operation of the supply
extension (`transfer`, `transferFrom`, `approve`, `setOperator`, `_mint`,
`_burn` and the batch mint/burn forms), the sum of balances over all
non-zero owners equals `total_supply[id]` for every id, and the zero
address's balance stays `0` — the invariant `Inv` is preserved. -/
theorem claim_c3_supply_invariant :
    (∀ st caller receiver id amount st', Inv st →
      Erc6909Supply.transfer st caller receiver id amount = .ok st' →
        Inv st') ∧
    (∀ st caller sender receiver id amount st', Inv st →
      Erc6909Supply.transfer_from st caller sender receiver id amount
          = .ok st' → Inv st') ∧
    (∀ st caller spender id amount st', Inv st →
      Erc6909Supply.approve st caller spender id amount = .ok st' →
        Inv st') ∧
    (∀ st caller spender approved st', Inv st →
      Erc6909Supply.set_operator st caller spender approved = .ok st' →
        Inv st') ∧
    (∀ st to_ id amount st', Inv st →
      Erc6909Supply._mint st to_ id amount = .ok st' → Inv st') ∧
    (∀ st from_ id amount st', Inv st →
      Erc6909Supply._burn st from_ id amount = .ok st' → Inv st') ∧
    (∀ st to_ ids amounts st', Inv st →
      Erc6909Supply._mint_batch st to_ ids amounts = .ok st' → Inv st') ∧
    (∀ st from_ ids amounts st', Inv st →
      Erc6909Supply._burn_batch st from_ ids amounts = .ok st' → Inv st') := by
  refine ⟨?_, ?_, ?_, ?_, ?_, ?_, ?_, ?_⟩
  · intro st caller receiver id amount st' hInv h
    exact Erc6909Supply.supply_transfer_inv hInv h
  · intro st caller sender receiver id amount st' hInv h
    exact Erc6909Supply.supply_transfer_inv hInv h
  · intro st caller spender id amount st' hInv h
    unfold Erc6909Supply.approve at h
    rw [Outcome.bind_eq_ok] at h
    obtain ⟨b, hb, hrec⟩ := h
    have hst' : st' = { st with erc6909 := b } := (Outcome.ok.inj hrec).symm
    have hfields := Erc6909.approve_ok_fields hb
    refine inv_congr ?_ ?_ hInv
    · rw [hst']
      exact hfields.1
    · rw [hst']
  · intro st caller spender approved st' hInv h
    unfold Erc6909Supply.set_operator at h
    rw [Outcome.bind_eq_ok] at h
    obtain ⟨b, hb, hrec⟩ := h
    have hst' : st' = { st with erc6909 := b } := (Outcome.ok.inj hrec).symm
    have hfields := Erc6909.set_operator_ok_fields hb
    refine inv_congr ?_ ?_ hInv
    · rw [hst']
      exact hfields.1
    · rw [hst']
  · intro st to_ id amount st' hInv h
    exact Erc6909Supply.supply_do_mint_inv hInv h
  · intro st from_ id amount st' hInv h
    exact Erc6909Supply.supply_do_burn_inv hInv h
  · intro st to_ ids amounts st' hInv h
    exact Erc6909Supply.supply_do_mint_inv hInv h
  · intro st from_ ids amounts st' hInv h
    exact Erc6909Supply.supply_do_burn_inv hInv h

/-- Witness for C3: the invariant holds after a concrete successful
transfer of `4` tokens of id `3` from address `1` to address `2`. -/
theorem claim_c3_supply_invariant_witness :
    Inv ((Erc6909Supply.transfer oneHolderState 1 2 3 4).getOk
      oneHolderState) :=
  claim_c3_supply_invariant.1 oneHolderState 1 2 3 4
    ((Erc6909Supply.transfer oneHolderState 1 2 3 4).getOk oneHolderState)
    inv_oneHolderState rfl

/-- C4: on the burn leg of the supply extension's `_update` (`to` the
zero address, `from` non-zero), given the supply invariant, the total
burnt amount per id is covered by the stored supply, so the unchecked
subtractions never wrap and the final supply is the exact mathematical
difference. -/
theorem claim_c4_burn_supply_exact (st : Erc6909SupplyState)
    (from_ : Address) (ids amounts : List Nat) (st' : Erc6909SupplyState)
    (hInv : Inv st) (hfrom : from_ ≠ 0)
    (h : Erc6909Supply._update st from_ 0 ids amounts = .ok st') :
    ∀ id, amtSum id (ids.zip amounts) ≤ st.totalSupply id ∧
      st'.totalSupply id + amtSum id (ids.zip amounts)
        = st.totalSupply id := by
  obtain ⟨b, ts1, hbase, hmint, hb, hburn⟩ := Erc6909Supply.supply_update_ok h
  have hts1 : ts1 = st.totalSupply := by
    rcases hmint with ⟨hf, -⟩ | ⟨-, hts⟩
    · exact absurd hf hfrom
    · exact hts
  have hbn : st'.totalSupply
      = Erc6909Supply.supplyBurnFold ts1 (ids.zip amounts) := by
    rcases hburn with ⟨-, hx⟩ | ⟨ht, -⟩
    · exact hx
    · exact absurd rfl ht
  obtain ⟨hlen, hfold⟩ := Erc6909.update_ok hbase
  obtain ⟨-, hs, -, -⟩ := Erc6909.updateFold_ok_effects _ hfold
  have hbound : ∀ j, amtSum j (ids.zip amounts) ≤ ts1 j := by
    intro j
    have hsj := hs j
    rw [if_neg hfrom, if_pos rfl] at hsj
    have hij := (hInv j).2
    rw [hts1]
    omega
  intro id
  have hbf := Erc6909Supply.supplyBurnFold_ok _ ts1 hbound id
  have hts1i : ts1 id = st.totalSupply id := by rw [hts1]
  have hbi := hbound id
  constructor
  · omega
  · rw [hbn]
    omega

/-- Witness for C4: burning the whole balance `7` of token `3` held by
address `1` leaves the supply at exactly `7 - 7`. -/
theorem claim_c4_burn_supply_exact_witness :
    amtSum 3 ([3].zip [7]) ≤ oneHolderState.totalSupply 3 ∧
    ((Erc6909Supply._update oneHolderState 1 0 [3] [7]).getOk
          oneHolderState).totalSupply 3 + amtSum 3 ([3].zip [7])
      = oneHolderState.totalSupply 3 :=
  claim_c4_burn_supply_exact oneHolderState 1 [3] [7]
    ((Erc6909Supply._update oneHolderState 1 0 [3] [7]).getOk oneHolderState)
    inv_oneHolderState (by decide) rfl 3

end Erc6909Spec

namespace Erc6909Spec

/-- C6: a `_do_mint` (covering `_mint` and `_mint_batch`) on the supply
extension whose mathematical result would push `total_supply[id]` or the
recipient's balance of some id past `2^256 - 1` ends in a fatal panic —
it neither wraps nor returns an error value. -/
theorem claim_c6_mint_overflow_aborts (st : Erc6909SupplyState)
    (to_ : Address) (ids amounts : List Nat) (hwf : WF st) (hto : to_ ≠ 0)
    (hlen : ids.length = amounts.length)
    (hovf : ∃ id, MOD ≤ st.totalSupply id + amtSum id (ids.zip amounts) ∨
        MOD ≤ st.erc6909.balances to_ id + amtSum id (ids.zip amounts)) :
    (Erc6909Supply._do_mint st to_ ids amounts).isFatal = true := by
  unfold Erc6909Supply._do_mint
  rw [if_neg hto]
  cases hres : Erc6909Supply._update st 0 to_ ids amounts with
  | fatal m => rfl
  | err e =>
      exfalso
      unfold Erc6909Supply._update at hres
      cases hbase : Erc6909._update st.erc6909 0 to_ ids amounts with
      | fatal m2 =>
          rw [hbase] at hres
          simp only [Outcome.bind] at hres
          exact Outcome.noConfusion hres
      | err e2 =>
          unfold Erc6909._update Erc6909.require_equal_arrays_length at hbase
          rw [if_neg (fun hh => hh hlen)] at hbase
          simp only [Outcome.bind] at hbase
          exact Erc6909.updateFold_mint_no_err hto _ hbase
      | ok b =>
          rw [hbase] at hres
          simp only [Outcome.bind] at hres
          simp only [if_true] at hres
          cases hm : Erc6909Supply.supplyMintFold st.totalSupply
              (ids.zip amounts) with
          | fatal m3 =>
              rw [hm] at hres
              simp only [Outcome.bind] at hres
              exact Outcome.noConfusion hres
          | err e3 => exact Erc6909Supply.supplyMintFold_no_err _ hm
          | ok ts1 =>
              rw [hm] at hres
              simp only [Outcome.bind] at hres
              exact Outcome.noConfusion hres
  | ok st' =>
      exfalso
      obtain ⟨b, ts1, hbase, hmint, hb, hburn⟩ :=
        Erc6909Supply.supply_update_ok hres
      have hm : Erc6909Supply.supplyMintFold st.totalSupply (ids.zip amounts)
          = .ok ts1 := by
        rcases hmint with ⟨-, hx⟩ | ⟨hf, -⟩
        · exact hx
        · exact absurd rfl hf
      obtain ⟨hlen2, hfold⟩ := Erc6909.update_ok hbase
      obtain ⟨id, hcase⟩ := hovf
      rcases hcase with hsup | hbal
      · have hmk := Erc6909Supply.supplyMintFold_ok _ hm id
        have hwi := hwf.2 id
        have hlt := hmk.2 hwi
        have h1 := hmk.1
        omega
      · have hmt := Erc6909.updateFold_mint_to hto _ hfold id
        have hwb := hwf.1 to_ id
        have hlt := hmt.2 hwb
        have h1 := hmt.1
        omega

/-- Witness for C6: minting `2` more tokens of id `3` to address `2`
when the supply already stands at `2^256 - 1` panics. -/
theorem claim_c6_mint_overflow_aborts_witness :
    (Erc6909Supply._do_mint nearMaxState 2 [3] [2]).isFatal = true := by
  apply claim_c6_mint_overflow_aborts
  · constructor
    · intro a i
      show (if a = 1 then MOD - 1 else 0) < MOD
      have := MOD_pos
      by_cases ha : a = 1
      · rw [if_pos ha]
        omega
      · rw [if_neg ha]
        omega
    · intro i
      show MOD - 1 < MOD
      have := MOD_pos
      omega
  · decide
  · rfl
  · refine ⟨3, Or.inl ?_⟩
    show MOD ≤ MOD - 1 + amtSum 3 ([3].zip [2])
    have h2 : amtSum 3 ([3].zip [2]) = 2 := rfl
    have := MOD_pos
    omega

/-- C7: with length-mismatched batch vectors, the base `_update`, the
supply extension's `_update`, and (behind their non-zero address guards)
`_mintBatch` and `_burnBatch` all fail with `InvalidArrayLength`
carrying both lengths. The check precedes every write, and a returned
error makes the host revert the invocation, so no balance, allowance,
operator flag or supply entry survives from a failed call. -/
theorem claim_c7_length_mismatch (st : Erc6909SupplyState)
    (bst : Erc6909State) (from_ to_ : Address) (ids amounts : List Nat)
    (hlen : ids.length ≠ amounts.length) :
    Erc6909._update bst from_ to_ ids amounts =
      .err (.InvalidArrayLength ids.length amounts.length) ∧
    Erc6909Supply._update st from_ to_ ids amounts =
      .err (.InvalidArrayLength ids.length amounts.length) ∧
    (to_ ≠ 0 → Erc6909Supply._mint_batch st to_ ids amounts =
      .err (.InvalidArrayLength ids.length amounts.length)) ∧
    (from_ ≠ 0 → Erc6909Supply._burn_batch st from_ ids amounts =
      .err (.InvalidArrayLength ids.length amounts.length)) := by
  have hbase : ∀ (b : Erc6909State) (f t : Address),
      Erc6909._update b f t ids amounts =
        .err (.InvalidArrayLength ids.length amounts.length) := by
    intro b f t
    unfold Erc6909._update Erc6909.require_equal_arrays_length
    rw [if_pos hlen]
    rfl
  have hsup : ∀ f t : Address,
      Erc6909Supply._update st f t ids amounts =
        .err (.InvalidArrayLength ids.length amounts.length) := by
    intro f t
    unfold Erc6909Supply._update
    rw [hbase st.erc6909 f t]
    rfl
  refine ⟨hbase bst from_ to_, hsup from_ to_, fun hto => ?_, fun hfrom => ?_⟩
  · unfold Erc6909Supply._mint_batch Erc6909Supply._do_mint
    rw [if_neg hto]
    exact hsup 0 to_
  · unfold Erc6909Supply._burn_batch Erc6909Supply._do_burn
    rw [if_neg hfrom]
    exact hsup from_ 0

/-- Witness for C7 at concrete mismatched vectors `[1, 2]` / `[5]`. -/
theorem claim_c7_length_mismatch_witness :
    Erc6909._update oneHolderState.erc6909 1 2 [1, 2] [5] =
      .err (.InvalidArrayLength 2 1) ∧
    Erc6909Supply._update oneHolderState 1 2 [1, 2] [5] =
      .err (.InvalidArrayLength 2 1) ∧
    Erc6909Supply._mint_batch oneHolderState 2 [1, 2] [5] =
      .err (.InvalidArrayLength 2 1) ∧
    Erc6909Supply._burn_batch oneHolderState 1 [1, 2] [5] =
      .err (.InvalidArrayLength 2 1) := by
  have h := claim_c7_length_mismatch oneHolderState oneHolderState.erc6909
    1 2 [1, 2] [5] (by decide)
  exact ⟨h.1, h.2.1, h.2.2.1 (by decide), h.2.2.2 (by decide)⟩

end Erc6909Spec

namespace Erc6909Spec

namespace Erc6909

/-- A successful base `_do_mint` keeps the authorization maps unchanged. -/
theorem do_mint_auth {st st' : Erc6909State} {t : Address}
    {ids amounts : List Nat} (h : _do_mint st t ids amounts = .ok st') :
    st'.operatorApprovals = st.operatorApprovals ∧
      st'.allowances = st.allowances := by
  unfold _do_mint at h
  by_cases ht : t = 0
  · rw [if_pos ht] at h
    exact Outcome.noConfusion h
  · rw [if_neg ht] at h
    exact update_auth h

/-- A successful base `_do_burn` keeps the authorization maps unchanged. -/
theorem do_burn_auth {st st' : Erc6909State} {f : Address}
    {ids amounts : List Nat} (h : _do_burn st f ids amounts = .ok st') :
    st'.operatorApprovals = st.operatorApprovals ∧
      st'.allowances = st.allowances := by
  unfold _do_burn at h
  by_cases hf : f = 0
  · rw [if_pos hf] at h
    exact Outcome.noConfusion h
  · rw [if_neg hf] at h
    exact update_auth h

end Erc6909

/-- C9: every successful `transfer`, `_mint` or `_burn` (single or
batched) of the base ledger or of the supply extension, and every
successful base `transferFrom` that does not take the allowance branch
(caller is the sender or an operator of the sender), leaves the
`allowances` and `operator_approvals` maps exactly as they were. -/
theorem claim_c9_auth_frame :
    (∀ st caller receiver id amount st',
      Erc6909.transfer st caller receiver id amount = .ok st' →
        st'.allowances = st.allowances ∧
          st'.operatorApprovals = st.operatorApprovals) ∧
    (∀ st caller sender receiver id amount st',
      (Erc6909.is_operator st sender caller = true ∨ caller = sender) →
      Erc6909.transfer_from st caller sender receiver id amount = .ok st' →
        st'.allowances = st.allowances ∧
          st'.operatorApprovals = st.operatorApprovals) ∧
    (∀ st to_ id amount st', Erc6909._mint st to_ id amount = .ok st' →
        st'.allowances = st.allowances ∧
          st'.operatorApprovals = st.operatorApprovals) ∧
    (∀ st to_ ids amounts st',
      Erc6909._mint_batch st to_ ids amounts = .ok st' →
        st'.allowances = st.allowances ∧
          st'.operatorApprovals = st.operatorApprovals) ∧
    (∀ st from_ id amount st', Erc6909._burn st from_ id amount = .ok st' →
        st'.allowances = st.allowances ∧
          st'.operatorApprovals = st.operatorApprovals) ∧
    (∀ st from_ ids amounts st',
      Erc6909._burn_batch st from_ ids amounts = .ok st' →
        st'.allowances = st.allowances ∧
          st'.operatorApprovals = st.operatorApprovals) ∧
    (∀ st caller receiver id amount st',
      Erc6909Supply.transfer st caller receiver id amount = .ok st' →
        st'.erc6909.allowances = st.erc6909.allowances ∧
          st'.erc6909.operatorApprovals = st.erc6909.operatorApprovals) ∧
    (∀ st to_ id amount st', Erc6909Supply._mint st to_ id amount = .ok st' →
        st'.erc6909.allowances = st.erc6909.allowances ∧
          st'.erc6909.operatorApprovals = st.erc6909.operatorApprovals) ∧
    (∀ st to_ ids amounts st',
      Erc6909Supply._mint_batch st to_ ids amounts = .ok st' →
        st'.erc6909.allowances = st.erc6909.allowances ∧
          st'.erc6909.operatorApprovals = st.erc6909.operatorApprovals) ∧
    (∀ st from_ id amount st',
      Erc6909Supply._burn st from_ id amount = .ok st' →
        st'.erc6909.allowances = st.erc6909.allowances ∧
          st'.erc6909.operatorApprovals = st.erc6909.operatorApprovals) ∧
    (∀ st from_ ids amounts st',
      Erc6909Supply._burn_batch st from_ ids amounts = .ok st' →
        st'.erc6909.allowances = st.erc6909.allowances ∧
          st'.erc6909.operatorApprovals = st.erc6909.operatorApprovals) := by
  refine ⟨?_, ?_, ?_, ?_, ?_, ?_, ?_, ?_, ?_, ?_, ?_⟩
  · intro st caller receiver id amount st' h
    have ha := Erc6909.transfer_auth h
    exact ⟨ha.2, ha.1⟩
  · intro st caller sender receiver id amount st' hcond h
    unfold Erc6909.transfer_from at h
    rw [if_neg] at h
    · simp only [Outcome.bind] at h
      have ha := Erc6909.transfer_auth h
      exact ⟨ha.2, ha.1⟩
    · rintro ⟨hnop, hne⟩
      rcases hcond with hop | heq
      · exact hnop hop
      · exact hne heq.symm
  · intro st to_ id amount st' h
    have ha := Erc6909.do_mint_auth h
    exact ⟨ha.2, ha.1⟩
  · intro st to_ ids amounts st' h
    have ha := Erc6909.do_mint_auth h
    exact ⟨ha.2, ha.1⟩
  · intro st from_ id amount st' h
    have ha := Erc6909.do_burn_auth h
    exact ⟨ha.2, ha.1⟩
  · intro st from_ ids amounts st' h
    have ha := Erc6909.do_burn_auth h
    exact ⟨ha.2, ha.1⟩
  · intro st caller receiver id amount st' h
    have ha := Erc6909Supply.supply_transfer_auth h
    exact ⟨ha.2, ha.1⟩
  · intro st to_ id amount st' h
    have ha := Erc6909Supply.supply_do_mint_auth h
    exact ⟨ha.2, ha.1⟩
  · intro st to_ ids amounts st' h
    have ha := Erc6909Supply.supply_do_mint_auth h
    exact ⟨ha.2, ha.1⟩
  · intro st from_ id amount st' h
    have ha := Erc6909Supply.supply_do_burn_auth h
    exact ⟨ha.2, ha.1⟩
  · intro st from_ ids amounts st' h
    have ha := Erc6909Supply.supply_do_burn_auth h
    exact ⟨ha.2, ha.1⟩

/-- Witness for C9: after the concrete transfer of `4` tokens of id `3`
from address `1` to address `2` on the supply extension, both
authorization maps are unchanged. -/
theorem claim_c9_auth_frame_witness :
    ((Erc6909Supply.transfer oneHolderState 1 2 3 4).getOk
        oneHolderState).erc6909.allowances
      = oneHolderState.erc6909.allowances ∧
    ((Erc6909Supply.transfer oneHolderState 1 2 3 4).getOk
        oneHolderState).erc6909.operatorApprovals
      = oneHolderState.erc6909.operatorApprovals :=
  claim_c9_auth_frame.2.2.2.2.2.2.1 oneHolderState 1 2 3 4
    ((Erc6909Supply.transfer oneHolderState 1 2 3 4).getOk oneHolderState) rfl

end Erc6909Spec
